import Mathlib

/-!
Shallow embedding of `getSolarPanelData.go` (SMASH3D/goSolarPanel).

Modelling conventions:
* Go `int64` values are modelled as `Int`; `strconv.ParseInt`'s 64-bit range
  check is kept explicit in `goParseInt64`.
* Go `float64` values are modelled as `ℚ` where they are known finite
  (every float decoded from JSON; Go's float JSON encoding is
  value-faithful).  Where a non-finite value is reachable — the
  `Performance` computed by a run and handed to the marshaller —
  `GoFloat` tracks NaN and the infinities, which `json.Marshal` refuses
  to encode.
* A scraped HTML table row is the list of its `ChildText` cell strings,
  indexed from 1 as in the `td:nth-child(k)` selectors; a missing cell
  yields `""` exactly as `ChildText` does for an empty selection.
* The Go map `map[string]LiveData` is an association list with Go-map
  update semantics (`mapInsert` overwrites an existing key in place,
  otherwise adds the binding); lookup of an absent key yields the zero
  `LiveData` value, as in Go (`mapGet`).
* Network and file effects are passed in as explicit arguments:
  `parseRealTime` receives the fetch result (`Except` for the error of
  `colly.Collector.Visit`), the load functions receive the file state
  (`none` = `os.Open` failed; `some none` = file opened but its bytes are
  not valid JSON; `some (some j)` = file opened and parsed to JSON `j`).
* `json.MarshalIndent` / `json.Unmarshal` are modelled at the JSON-value
  level by `Json`, the encoders, and the lenient Go-style decoders
  (unknown keys ignored, missing or ill-typed fields left at the zero
  value, last duplicate key wins, case-insensitive field-name fallback).
-/

/-- Go `unicode`-style digit test restricted to ASCII, as used by
`strconv.ParseInt` base 10 and by `\d` in the Go regexp. -/
def isDigit (c : Char) : Bool := '0' ≤ c && c ≤ '9'

/-- Numeric value of a list of ASCII digits, most significant first. -/
def digitsVal (cs : List Char) : Nat :=
  cs.foldl (fun a c => a * 10 + (c.toNat - 48)) 0

/-- Digit part of `strconv.ParseInt`: a non-empty run of ASCII digits
and nothing else, negated when a `-` sign was consumed, with the 64-bit
signed range check. -/
def goParseDigits (neg : Bool) (ds : List Char) : Option Int :=
  if ds = [] then none
  else if ds.all isDigit then
    let v : Int := if neg then -(digitsVal ds : Int) else (digitsVal ds : Int)
    if -(2 ^ 63) ≤ v ∧ v ≤ 2 ^ 63 - 1 then some v else none
  else none

/-- Model of Go `strconv.ParseInt(s, 10, 64)`: optional single leading
`+` or `-`, then a non-empty run of ASCII digits and nothing else, with
the 64-bit signed range check; every other input is an error (`none`). -/
def goParseInt64 (s : String) : Option Int :=
  match s.data with
  | [] => none
  | c :: rest =>
    if c = '-' then goParseDigits true rest
    else if c = '+' then goParseDigits false rest
    else goParseDigits false (c :: rest)

/-- Character class `[\d,]` of the source regexp
`[-]?\d[\d,]*[\.]?[\d{2}]*`. -/
def isNumBody (c : Char) : Bool := isDigit c || c = ','

/-- Character class `[\d{2}]` of the source regexp: a digit or one of the
literal characters `{`, `2`, `}` (the braces are not a repetition count
inside a character class). -/
def isTailClass (c : Char) : Bool := isDigit c || c = '{' || c = '2' || c = '}'

/-- Greedy continuation of a regexp match after its first digit:
`[\d,]*` then an optional `.` followed by `[\d{2}]*`.  Returns the
matched characters and the remaining input. -/
def numTail (cs : List Char) : List Char × List Char :=
  let a := cs.takeWhile isNumBody
  match cs.dropWhile isNumBody with
  | '.' :: r2 => (a ++ '.' :: r2.takeWhile isTailClass, r2.dropWhile isTailClass)
  | r1 => (a, r1)

/-- Leftmost-first match of `[-]?\d[\d,]*[\.]?[\d{2}]*` anchored at the
head of the input: `some (match, rest)` or `none` when no match starts
here.  All quantifiers are greedy, so the match is deterministic. -/
def matchNumAt : List Char → Option (List Char × List Char)
  | [] => none
  | '-' :: rest =>
    match rest with
    | [] => none
    | c :: rest2 =>
      if isDigit c then
        some ('-' :: c :: (numTail rest2).1, (numTail rest2).2)
      else none
  | c :: rest =>
    if isDigit c then some (c :: (numTail rest).1, (numTail rest).2) else none

/-- Fuelled scan for `regexp.FindAllString(re, -1)`: successive
non-overlapping leftmost matches.  Every match consumes at least one
character, so fuel equal to the input length is always sufficient. -/
def findAllNumsAux : Nat → List Char → List (List Char)
  | 0, _ => []
  | _ + 1, [] => []
  | fuel + 1, c :: rest =>
    match matchNumAt (c :: rest) with
    | some (m, r) => m :: findAllNumsAux fuel r
    | none => findAllNumsAux fuel rest

/-- Model of `re.FindAllString(text, -1)` for the source regexp. -/
def findAllNums (cs : List Char) : List (List Char) :=
  findAllNumsAux cs.length cs

/-- The string actually handed to `ParseInt` by the source:
`strings.Join(re.FindAllString(cell, -1), "")`, the concatenation of all
matches. -/
def joinedMatches (s : String) : String :=
  String.mk (findAllNums s.data).flatten

/-- Numeric field extraction of the source: parse the concatenation of
all regexp matches as a base-10 `int64`; on any parse error the field
keeps its zero value (`if err == nil { field = v }`). -/
def extractNum (s : String) : Int :=
  (goParseInt64 (joinedMatches s)).getD 0

/-- ASCII case folding used to model `strings.EqualFold` (the only
comparison in the source is against the ASCII literal "Inverter ID"). -/
def asciiFold (c : Char) : Char :=
  if 'A' ≤ c && c ≤ 'Z' then Char.ofNat (c.toNat + 32) else c

/-- Model of `strings.EqualFold` restricted to ASCII folding. -/
def eqFold (a b : String) : Bool :=
  a.data.map asciiFold == b.data.map asciiFold

/-- `e.ChildText("td:nth-child(k)")`: the k-th cell of the row, `""`
when the row has fewer cells. -/
def cellText (row : List String) (k : Nat) : String :=
  row.getD (k - 1) ""

/-- The `LiveData` struct of the source. -/
structure LiveData where
  CurrentPower : Int
  Voltage : Int
  Temperature : Int
  Date : String
deriving DecidableEq, Repr

/-- The Go zero value of `LiveData`. -/
def zeroLive : LiveData := ⟨0, 0, 0, ""⟩

/-- The body of the `OnHTML("body > table > tbody > tr", ...)` callback,
up to the map write: `none` when the callback returns without touching
the map (header row, or extracted power equal to 0), otherwise the
key/value pair it stores. -/
def parseRow (row : List String) : Option (String × LiveData) :=
  let InverterID := cellText row 1
  if eqFold InverterID "Inverter ID" then none
  else
    let liveData : LiveData :=
      { CurrentPower := extractNum (cellText row 2)
        Voltage := extractNum (cellText row 4)
        Temperature := extractNum (cellText row 5)
        Date := cellText row 6 }
    if liveData.CurrentPower = 0 then none else some (InverterID, liveData)

/-- Go-map update semantics on an association list: `m[k] = v`
overwrites the binding of an existing key in place, otherwise appends a
new binding. -/
def mapInsert (m : List (String × LiveData)) (k : String) (v : LiveData) :
    List (String × LiveData) :=
  if m.any (fun p => p.1 == k) then
    m.map (fun p => if p.1 == k then (k, v) else p)
  else m ++ [(k, v)]

/-- Go-map lookup returning `none` for an absent key (the `, ok` form). -/
def mapLookup (m : List (String × LiveData)) (k : String) : Option LiveData :=
  (m.find? (fun p => p.1 == k)).map Prod.snd

/-- Go-map indexing `m[k]`: the zero `LiveData` value for an absent key. -/
def mapGet (m : List (String × LiveData)) (k : String) : LiveData :=
  match mapLookup m k with
  | some v => v
  | none => zeroLive

/-- One `OnHTML` callback invocation acting on `dataMap`. -/
def stepRow (m : List (String × LiveData)) (row : List String) :
    List (String × LiveData) :=
  match parseRow row with
  | some (k, v) => mapInsert m k v
  | none => m

/-- All callback invocations of one page visit, in document order,
starting from the empty `dataMap`. -/
def processRows (rows : List (List String)) : List (String × LiveData) :=
  rows.foldl stepRow []

/-- Outcome of a program fragment that may call `log.Fatal`/`panic`. -/
inductive RunOutcome (α : Type) where
  | fatal (msg : String)
  | ok (v : α)
deriving DecidableEq, Repr

/-- Whether the fragment aborted the process. -/
def RunOutcome.isFatal {α : Type} : RunOutcome α → Bool
  | .fatal _ => true
  | .ok _ => false

/-- `parseRealTime` of the source.  The argument is the result of
`c.Visit(...)`: `Except.ok rows` delivers the scraped table rows,
`Except.error e` is a network failure.  The source discards the error
value returned by `Visit` (line `c.Visit("http://192.168.1.68/...")`
drops it), so on failure no callback runs and the empty map is returned
normally — there is no fatal path in this function. -/
def parseRealTime (fetch : Except String (List (List String))) :
    RunOutcome (List (String × LiveData)) :=
  match fetch with
  | .error _ => RunOutcome.ok (processRows [])
  | .ok rows => RunOutcome.ok (processRows rows)

/-- The `Panel` struct of the source. -/
structure Panel where
  InverterID : String
  HistoricalData : List LiveData
deriving DecidableEq, Repr

/-- The `SolarData` struct of the source (`float64` fields as `ℚ`). -/
structure SolarData where
  Uvi : ℚ
  UvMax : ℚ
  UvMaxTime : String
  SunAltitude : ℚ
  SunAzimuth : ℚ
deriving DecidableEq, Repr

/-- The `GlobalData` struct of the source. -/
structure GlobalData where
  Date : String
  Power : Int
  Performance : ℚ
  SolarData : SolarData
deriving DecidableEq, Repr

/-- `const maxPower = 250`. -/
def maxPower : Int := 250

/-- The panel-update half of the main loop:
`panels[i].HistoricalData = append(panel.HistoricalData, liveDataMap[panel.InverterID])`. -/
def updatePanels (panels : List Panel) (m : List (String × LiveData)) :
    List Panel :=
  panels.map (fun p =>
    { p with HistoricalData := p.HistoricalData ++ [mapGet m p.InverterID] })

/-- The accumulation half of the main loop:
`*totalOutput += liveDataMap[panel.InverterID].CurrentPower`. -/
def totalOutput (panels : List Panel) (m : List (String × LiveData)) : Int :=
  panels.foldl (fun acc p => acc + (mapGet m p.InverterID).CurrentPower) 0

/-- `theoreticalTotalOutput := int64(len(panels)) * maxPower`. -/
def theoreticalTotalOutput (panels : List Panel) : Int :=
  (panels.length : Int) * maxPower

/-- `globalData.Performance = float64(*totalOutput) / float64(theoreticalTotalOutput) * 100`. -/
def performance (panels : List Panel) (m : List (String × LiveData)) : ℚ :=
  (totalOutput panels m : ℚ) / (theoreticalTotalOutput panels : ℚ) * 100

/-- The pure core of `main` after the fetches and loads: the scraped map
`m`, the solar snapshot, the formatted current time, and the two loaded
collections go in; the two collections handed to `savePanels` /
`saveGlobal` come out. -/
def runMain (m : List (String × LiveData)) (solar : SolarData) (now : String)
    (panels : List Panel) (globals : List GlobalData) :
    List Panel × List GlobalData :=
  let panels' := updatePanels panels m
  let globalData : GlobalData :=
    { Date := now
      Power := totalOutput panels m
      Performance := performance panels m
      SolarData := solar }
  (panels', globals ++ [globalData])

/-- JSON values, with numbers as exact rationals (Go's `float64`/`int64`
JSON encodings are value-faithful round trips). -/
inductive Json where
  | null
  | bool (b : Bool)
  | num (q : ℚ)
  | str (s : String)
  | arr (l : List Json)
  | obj (fields : List (String × Json))

/-- Field lookup of `encoding/json` struct decoding: keys are assigned
in document order (later assignments overwrite earlier ones), and a key
resolves to a struct field by exact name or, failing that,
case-insensitively.  No two field names of the structs here are
case-insensitively equal, so a key resolves to field `k` exactly when it
fold-matches `k`, and the last such key in document order wins
regardless of exactness. -/
def objLookup (fs : List (String × Json)) (k : String) : Option Json :=
  (fs.reverse.find? (fun p => eqFold p.1 k)).map Prod.snd

/-- Field of a JSON value when it is an object, `none` otherwise. -/
def fieldOf (j : Json) (k : String) : Option Json :=
  match j with
  | .obj fs => objLookup fs k
  | _ => none

/-- Lenient decode of an `int64` struct field: `encoding/json` records a
type error and leaves the field at its zero value when the value is not
an integral number or does not fit in a signed 64-bit integer, and the
source ignores the returned error. -/
def decodeIntField (v : Option Json) : Int :=
  match v with
  | some (.num q) =>
    if q.den = 1 ∧ -(2 ^ 63) ≤ q.num ∧ q.num ≤ 2 ^ 63 - 1 then q.num else 0
  | _ => 0

/-- Lenient decode of a `float64` struct field. -/
def decodeFloatField (v : Option Json) : ℚ :=
  match v with
  | some (.num q) => q
  | _ => 0

/-- Lenient decode of a `string` struct field. -/
def decodeStrField (v : Option Json) : String :=
  match v with
  | some (.str s) => s
  | _ => ""

/-- `json.Unmarshal` into `LiveData` (errors ignored by the source). -/
def decodeLive (j : Json) : LiveData :=
  { CurrentPower := decodeIntField (fieldOf j "CurrentPower")
    Voltage := decodeIntField (fieldOf j "Voltage")
    Temperature := decodeIntField (fieldOf j "Temperature")
    Date := decodeStrField (fieldOf j "Date") }

/-- `json.Unmarshal` into `[]LiveData`: a non-array leaves the slice nil. -/
def decodeLiveList (v : Option Json) : List LiveData :=
  match v with
  | some (.arr l) => l.map decodeLive
  | _ => []

/-- `json.Unmarshal` into `Panel`. -/
def decodePanel (j : Json) : Panel :=
  { InverterID := decodeStrField (fieldOf j "InverterID")
    HistoricalData := decodeLiveList (fieldOf j "HistoricalData") }

/-- `json.Unmarshal` into `[]Panel`: a non-array leaves the slice nil. -/
def decodePanels (j : Json) : List Panel :=
  match j with
  | .arr l => l.map decodePanel
  | _ => []

/-- `json.Unmarshal` into `SolarData`. -/
def decodeSolar (v : Option Json) : SolarData :=
  match v with
  | some j =>
    { Uvi := decodeFloatField (fieldOf j "Uvi")
      UvMax := decodeFloatField (fieldOf j "UvMax")
      UvMaxTime := decodeStrField (fieldOf j "UvMaxTime")
      SunAltitude := decodeFloatField (fieldOf j "SunAltitude")
      SunAzimuth := decodeFloatField (fieldOf j "SunAzimuth") }
  | none => ⟨0, 0, "", 0, 0⟩

/-- `json.Unmarshal` into `GlobalData`. -/
def decodeGlobal (j : Json) : GlobalData :=
  { Date := decodeStrField (fieldOf j "Date")
    Power := decodeIntField (fieldOf j "Power")
    Performance := decodeFloatField (fieldOf j "Performance")
    SolarData := decodeSolar (fieldOf j "SolarData") }

/-- `json.Unmarshal` into `[]GlobalData`: a non-array leaves the slice nil. -/
def decodeGlobals (j : Json) : List GlobalData :=
  match j with
  | .arr l => l.map decodeGlobal
  | _ => []

/-- `json.MarshalIndent` of `LiveData` at the JSON-value level. -/
def encodeLive (d : LiveData) : Json :=
  .obj [("CurrentPower", .num (d.CurrentPower : ℚ)),
        ("Voltage", .num (d.Voltage : ℚ)),
        ("Temperature", .num (d.Temperature : ℚ)),
        ("Date", .str d.Date)]

/-- `json.MarshalIndent` of `Panel`. -/
def encodePanel (p : Panel) : Json :=
  .obj [("InverterID", .str p.InverterID),
        ("HistoricalData", .arr (p.HistoricalData.map encodeLive))]

/-- `savePanels`: the JSON document written to `panels.json`. -/
def savePanels (panels : List Panel) : Json :=
  .arr (panels.map encodePanel)

/-- `json.MarshalIndent` of `SolarData`. -/
def encodeSolar (s : SolarData) : Json :=
  .obj [("Uvi", .num s.Uvi),
        ("UvMax", .num s.UvMax),
        ("UvMaxTime", .str s.UvMaxTime),
        ("SunAltitude", .num s.SunAltitude),
        ("SunAzimuth", .num s.SunAzimuth)]

/-- Go `float64` as the run arithmetic and `encoding/json` see it: a
finite value (idealised as an exact rational, as elsewhere in this
development) or one of the non-finite values NaN and the two infinities,
which `json.Marshal` refuses to encode.  Signed zero is not
distinguished. -/
inductive GoFloat where
  | finite (q : ℚ)
  | nan
  | posInf
  | negInf
deriving DecidableEq, Repr

/-- The rational carried by a finite float, 0 otherwise. -/
def GoFloat.toRat : GoFloat → ℚ
  | .finite q => q
  | _ => 0

/-- Whether a float is finite, that is, encodable by `encoding/json`. -/
def GoFloat.isFinite : GoFloat → Bool
  | .finite _ => true
  | _ => false

/-- IEEE-754 division on `GoFloat`: finite division by zero yields NaN
(for 0/0) or a signed infinity; NaN propagates. -/
def divF : GoFloat → GoFloat → GoFloat
  | .finite a, .finite b =>
    if b = 0 then (if a = 0 then .nan else if 0 < a then .posInf else .negInf)
    else .finite (a / b)
  | .nan, _ => .nan
  | _, .nan => .nan
  | .posInf, .posInf => .nan
  | .posInf, .negInf => .nan
  | .negInf, .posInf => .nan
  | .negInf, .negInf => .nan
  | .posInf, .finite b => if 0 ≤ b then .posInf else .negInf
  | .negInf, .finite b => if 0 ≤ b then .negInf else .posInf
  | .finite _, .posInf => .finite 0
  | .finite _, .negInf => .finite 0

/-- IEEE-754 multiplication on `GoFloat`: NaN propagates, infinity
times zero is NaN. -/
def mulF : GoFloat → GoFloat → GoFloat
  | .finite a, .finite b => .finite (a * b)
  | .nan, _ => .nan
  | _, .nan => .nan
  | .posInf, .posInf => .posInf
  | .posInf, .negInf => .negInf
  | .negInf, .posInf => .negInf
  | .negInf, .negInf => .posInf
  | .posInf, .finite b => if b = 0 then .nan else if 0 < b then .posInf else .negInf
  | .negInf, .finite b => if b = 0 then .nan else if 0 < b then .negInf else .posInf
  | .finite a, .posInf => if a = 0 then .nan else if 0 < a then .posInf else .negInf
  | .finite a, .negInf => if a = 0 then .nan else if 0 < a then .negInf else .posInf

/-- Line 228 of the source in `float64` semantics:
`float64(*totalOutput) / float64(theoreticalTotalOutput) * 100`.  With a
non-empty panel collection this is the finite value `performance` (see
`performanceF_eq_finite`); with an empty one it is NaN, from 0/0. -/
def performanceF (panels : List Panel) (m : List (String × LiveData)) : GoFloat :=
  mulF (divF (.finite (totalOutput panels m : ℚ))
             (.finite (theoreticalTotalOutput panels : ℚ)))
       (.finite 100)

/-- The Go `int64` value range, as in `goParseDigits`. -/
def inInt64 (n : Int) : Prop := -(2 ^ 63) ≤ n ∧ n ≤ 2 ^ 63 - 1

/-- All integer fields of a `LiveData` are `int64`-representable, as
they always are in the program. -/
def liveInRange (d : LiveData) : Prop :=
  inInt64 d.CurrentPower ∧ inInt64 d.Voltage ∧ inInt64 d.Temperature

/-- All readings of a panel are `int64`-representable. -/
def panelInRange (p : Panel) : Prop := ∀ d ∈ p.HistoricalData, liveInRange d

instance (n : Int) : Decidable (inInt64 n) := by
  unfold inInt64
  infer_instance

instance (d : LiveData) : Decidable (liveInRange d) := by
  unfold liveInRange
  infer_instance

instance (p : Panel) : Decidable (panelInRange p) := by
  unfold panelInRange
  infer_instance

/-- `GlobalData` as built by the run and handed to `json.MarshalIndent`:
its `Performance` is a `float64` that may be non-finite (NaN arises from
a run over an empty panel collection).  The `SolarData` floats come from
decoded JSON and are therefore always finite, like every float read back
from disk — which is why the decode-side `GlobalData` carries plain
rationals. -/
structure GlobalDataF where
  Date : String
  Power : Int
  Performance : GoFloat
  SolarData : SolarData
deriving DecidableEq, Repr

/-- The in-memory view of a marshallable summary record with finite
performance. -/
def toGlobalData (g : GlobalDataF) : GlobalData :=
  { Date := g.Date
    Power := g.Power
    Performance := g.Performance.toRat
    SolarData := g.SolarData }

/-- `json.Marshal` of a `float64` value: non-finite values are an
`UnsupportedValueError`. -/
def marshalFloat : GoFloat → Option Json
  | .finite q => some (.num q)
  | _ => none

/-- `json.MarshalIndent` of one `GlobalData` record: fails exactly when
its `Performance` float is non-finite. -/
def encodeGlobal (g : GlobalDataF) : Option Json :=
  match marshalFloat g.Performance with
  | some pj =>
    some (.obj [("Date", .str g.Date),
                ("Power", .num (g.Power : ℚ)),
                ("Performance", pj),
                ("SolarData", encodeSolar g.SolarData)])
  | none => none

/-- `json.MarshalIndent` of the summary array: fails when any record
fails. -/
def marshalGlobals : List GlobalDataF → Option (List Json)
  | [] => some []
  | g :: gs =>
    match encodeGlobal g, marshalGlobals gs with
    | some j, some js => some (j :: js)
    | _, _ => none

/-- `saveGlobal` of the source: the marshalled `global.json` document,
or `none` when `json.MarshalIndent` returns an error (the source
discards both the marshal error and the `WriteFile` error). -/
def saveGlobal (globals : List GlobalDataF) : Option Json :=
  (marshalGlobals globals).map Json.arr

/-- The state of `global.json` after `saveGlobal` runs: on marshal
success the marshalled document; on marshal error the discarded error
leaves `file` nil and `ioutil.WriteFile` truncates the file to zero
bytes, which are not valid JSON (`some none` in the file-state
convention). -/
def globalFileAfterSave (globals : List GlobalDataF) : Option (Option Json) :=
  match saveGlobal globals with
  | some j => some (some j)
  | none => some none

/-- `loadPanelsFromJSON` of the source.  The argument is the state of
`panels.json`: `none` — `os.Open` failed (the source calls `log.Fatal`);
`some none` — the file opened but its bytes are not valid JSON
(`json.Unmarshal` returns an error that the source discards, leaving the
nil slice); `some (some j)` — the file parsed to the JSON value `j`,
decoded leniently with all errors discarded. -/
def loadPanelsFromJSON (file : Option (Option Json)) : RunOutcome (List Panel) :=
  match file with
  | none => RunOutcome.fatal "opening panels file"
  | some none => RunOutcome.ok []
  | some (some j) => RunOutcome.ok (decodePanels j)

/-- `loadGlobalFromJSON` of the source, same conventions as
`loadPanelsFromJSON`. -/
def loadGlobalFromJSON (file : Option (Option Json)) : RunOutcome (List GlobalData) :=
  match file with
  | none => RunOutcome.fatal "opening global file"
  | some none => RunOutcome.ok []
  | some (some j) => RunOutcome.ok (decodeGlobals j)

/-! ## Helper lemmas -/

/-- A row whose callback stores nothing leaves the whole scrape result
unchanged wherever it occurs in the row sequence. -/
theorem processRows_skip (rows1 rows2 : List (List String)) (row : List String)
    (h : parseRow row = none) :
    processRows (rows1 ++ row :: rows2) = processRows (rows1 ++ rows2) := by
  unfold processRows
  rw [List.foldl_append, List.foldl_append, List.foldl_cons]
  have hstep : stepRow (List.foldl stepRow [] rows1) row = List.foldl stepRow [] rows1 := by
    unfold stepRow
    rw [h]
  rw [hstep]

/-! ## Claim theorems -/

/-- C5: a table row whose first cell case-insensitively equals
"Inverter ID" is skipped as a header: it contributes nothing to the
result mapping. -/
theorem C5_header_row_skipped (rows1 rows2 : List (List String))
    (row : List String) (h : eqFold (cellText row 1) "Inverter ID" = true) :
    processRows (rows1 ++ row :: rows2) = processRows (rows1 ++ rows2) := by
  apply processRows_skip
  unfold parseRow
  simp [h]

/-- C5, witness: the spec scenario header row is skipped entirely. -/
theorem C5_witness :
    eqFold "Inverter ID" "Inverter ID" = true ∧
    processRows [["Inverter ID", "Power", "", "Voltage", "Temp", "Date"]] = processRows [] :=
  ⟨by decide, C5_header_row_skipped [] [] ["Inverter ID", "Power", "", "Voltage", "Temp", "Date"] (by decide)⟩

/-- C8, counterexample: the claim says a failed fetch of the inverter
status page is fatal; in the source the error returned by `c.Visit` is
discarded, no callback runs, and `parseRealTime` returns an empty
mapping normally — the run continues. -/
theorem C8_counterexample :
    parseRealTime (Except.error "connection refused") = RunOutcome.ok [] ∧
    (parseRealTime (Except.error "connection refused")).isFatal = false := by
  exact ⟨rfl, rfl⟩

/-- C8 (amended): when the network fetch of the inverter status page
fails, the error is ignored and the run continues with an empty readings
mapping (no fatal abort); only a successful fetch yields scraped rows. -/
theorem C8_amended_fetch_error_ignored (e : String) (rows : List (List String)) :
    parseRealTime (Except.error e) = RunOutcome.ok [] ∧
    (parseRealTime (Except.error e)).isFatal = false ∧
    parseRealTime (Except.ok rows) = RunOutcome.ok (processRows rows) :=
  ⟨rfl, rfl, rfl⟩

/-- C9, counterexample: the claim says malformed persistence-file
content aborts the process; in the source the `json.Unmarshal` error is
discarded and the nil slice — a zero-entry collection — is returned
silently for both files. -/
theorem C9_counterexample :
    loadPanelsFromJSON (some none) = RunOutcome.ok [] ∧
    (loadPanelsFromJSON (some none)).isFatal = false ∧
    loadGlobalFromJSON (some none) = RunOutcome.ok [] ∧
    (loadGlobalFromJSON (some none)).isFatal = false :=
  ⟨rfl, rfl, rfl, rfl⟩

/-- C9 (amended): loading a persistence file aborts with a diagnostic
exactly when the file cannot be opened; once the file is open no decode
failure is fatal, and malformed content silently yields the zero-entry
collection. -/
theorem C9_amended_load_behavior (c : Option Json) :
    (loadPanelsFromJSON none).isFatal = true ∧
    (loadGlobalFromJSON none).isFatal = true ∧
    (loadPanelsFromJSON (some c)).isFatal = false ∧
    (loadGlobalFromJSON (some c)).isFatal = false ∧
    loadPanelsFromJSON (some none) = RunOutcome.ok [] ∧
    loadGlobalFromJSON (some none) = RunOutcome.ok [] := by
  refine ⟨rfl, rfl, ?_, ?_, rfl, rfl⟩ <;> cases c <;> rfl

/-- The main-loop power accumulation starting from any initial value
equals that value plus the sum of the per-panel live powers. -/
theorem foldl_add_sum (panels : List Panel) (m : List (String × LiveData)) (init : Int) :
    panels.foldl (fun acc p => acc + (mapGet m p.InverterID).CurrentPower) init =
      init + (panels.map (fun p => (mapGet m p.InverterID).CurrentPower)).sum := by
  induction panels generalizing init with
  | nil => simp
  | cons p rest ih =>
    rw [List.foldl_cons, ih, List.map_cons, List.sum_cons, add_assoc]

/-- C2: one run appends exactly one Reading to every panel's history —
the matching live Reading when the scraped mapping contains the panel's
inverterID, otherwise the zero-valued Reading — preserving all prior
entries, so each history grows by exactly one; and exactly one
DailySummary is appended to the loaded summary sequence with the prior
entries unchanged. -/
theorem C2_run_appends_exactly_one (m : List (String × LiveData)) (solar : SolarData)
    (now : String) (panels : List Panel) (globals : List GlobalData) :
    (runMain m solar now panels globals).1.length = panels.length ∧
    (∀ i : Nat, (runMain m solar now panels globals).1[i]? =
        (panels[i]?).map (fun p =>
          { p with HistoricalData := p.HistoricalData ++
              [match mapLookup m p.InverterID with
               | some v => v
               | none => zeroLive] })) ∧
    (∀ i : Nat, ((runMain m solar now panels globals).1[i]?).map
        (fun p => p.HistoricalData.length) =
        (panels[i]?).map (fun p => p.HistoricalData.length + 1)) ∧
    (runMain m solar now panels globals).2 =
      globals ++ [{ Date := now, Power := totalOutput panels m,
                    Performance := performance panels m, SolarData := solar }] := by
  refine ⟨?_, ?_, ?_, rfl⟩
  · show (updatePanels panels m).length = panels.length
    unfold updatePanels
    exact List.length_map _ _
  · intro i
    show (updatePanels panels m)[i]? = _
    unfold updatePanels
    rw [List.getElem?_map]
    rfl
  · intro i
    show ((updatePanels panels m)[i]?).map _ = _
    unfold updatePanels
    rw [List.getElem?_map]
    cases panels[i]? with
    | none => rfl
    | some p => simp

/-- C3: for every run, the accumulated total power equals the sum of the
power fields of the readings just appended to the panels (the last entry
of each updated history), and the performance percentage is exactly
totalPower / (panelCount * 250) * 100, with no clamping. -/
theorem C3_total_and_performance (panels : List Panel) (m : List (String × LiveData)) :
    totalOutput panels m =
      ((updatePanels panels m).map
        (fun p => ((p.HistoricalData.getLast?).getD zeroLive).CurrentPower)).sum ∧
    performance panels m =
      (totalOutput panels m : ℚ) / ((panels.length : ℚ) * 250) * 100 := by
  constructor
  · unfold totalOutput updatePanels
    rw [foldl_add_sum, zero_add, List.map_map]
    congr 1
    apply List.map_congr_left
    intro p _
    simp [Function.comp, List.getLast?_concat]
  · unfold performance theoreticalTotalOutput maxPower
    push_cast
    ring

/-- C10: a run never creates or deletes a Panel — the written-back panel
collection has exactly the identifiers of the loaded one, in order — and
the whole run result depends only on the scraped readings at the loaded
panels' identifiers, so a live reading whose identifier is not a loaded
panel's is dropped and never persisted. -/
theorem C10_panel_set_preserved (solar : SolarData) (now : String)
    (panels : List Panel) (globals : List GlobalData)
    (m1 m2 : List (String × LiveData))
    (h : ∀ p ∈ panels, mapLookup m1 p.InverterID = mapLookup m2 p.InverterID) :
    (runMain m1 solar now panels globals).1.map Panel.InverterID =
      panels.map Panel.InverterID ∧
    runMain m1 solar now panels globals = runMain m2 solar now panels globals := by
  have hget : ∀ p ∈ panels, mapGet m1 p.InverterID = mapGet m2 p.InverterID := by
    intro p hp
    unfold mapGet
    rw [h p hp]
  have hupd : updatePanels panels m1 = updatePanels panels m2 := by
    unfold updatePanels
    apply List.map_congr_left
    intro p hp
    rw [hget p hp]
  have htot : totalOutput panels m1 = totalOutput panels m2 := by
    have hmap : panels.map (fun p => (mapGet m1 p.InverterID).CurrentPower) =
        panels.map (fun p => (mapGet m2 p.InverterID).CurrentPower) :=
      List.map_congr_left (fun p hp => by rw [hget p hp])
    unfold totalOutput
    rw [foldl_add_sum, foldl_add_sum, hmap]
  constructor
  · show (updatePanels panels m1).map Panel.InverterID = panels.map Panel.InverterID
    unfold updatePanels
    rw [List.map_map]
    rfl
  · unfold runMain performance
    rw [hupd, htot]

/-- C10, witness: with one loaded panel "A", a scraped map carrying an
extra reading for the unknown inverter "B" produces exactly the same run
result as the map without it. -/
theorem C10_witness :
    mapLookup [("A", LiveData.mk 100 230 35 "t"), ("B", LiveData.mk 150 231 36 "t")] "A" =
      mapLookup [("A", LiveData.mk 100 230 35 "t")] "A" ∧
    runMain [("A", LiveData.mk 100 230 35 "t"), ("B", LiveData.mk 150 231 36 "t")]
        (SolarData.mk 0 0 "" 0 0) "now" [Panel.mk "A" []] [] =
      runMain [("A", LiveData.mk 100 230 35 "t")] (SolarData.mk 0 0 "" 0 0) "now"
        [Panel.mk "A" []] [] :=
  ⟨by decide,
   (C10_panel_set_preserved (SolarData.mk 0 0 "" 0 0) "now" [Panel.mk "A" []] []
      [("A", LiveData.mk 100 230 35 "t"), ("B", LiveData.mk 150 231 36 "t")]
      [("A", LiveData.mk 100 230 35 "t")] (by decide)).2⟩

/-- Replacing the binding of key `k` does not change lookups of other
keys. -/
theorem find?_replace_ne (m : List (String × LiveData)) (k q : String)
    (v : LiveData) (hqk : q ≠ k) :
    (m.map (fun p => if p.1 == k then (k, v) else p)).find? (fun p => p.1 == q) =
      m.find? (fun p => p.1 == q) := by
  induction m with
  | nil => rfl
  | cons p m ih =>
    rw [List.map_cons]
    by_cases hpk : p.1 = k
    · rw [if_pos (by simp [hpk])]
      rw [List.find?_cons_of_neg _ (by simp [Ne.symm hqk]),
          List.find?_cons_of_neg _ (by simp [hpk, Ne.symm hqk])]
      exact ih
    · rw [if_neg (by simp [hpk])]
      by_cases hpq : p.1 = q
      · rw [List.find?_cons_of_pos _ (by simp [hpq]),
            List.find?_cons_of_pos _ (by simp [hpq])]
      · rw [List.find?_cons_of_neg _ (by simp [hpq]),
            List.find?_cons_of_neg _ (by simp [hpq])]
        exact ih

/-- When key `k` is present, replacing its binding makes lookup of `k`
return the new value. -/
theorem find?_replace_eq (m : List (String × LiveData)) (k : String) (v : LiveData)
    (hany : m.any (fun p => p.1 == k) = true) :
    (m.map (fun p => if p.1 == k then (k, v) else p)).find? (fun p => p.1 == k) =
      some (k, v) := by
  induction m with
  | nil => cases hany
  | cons p m ih =>
    rw [List.map_cons]
    by_cases hpk : p.1 = k
    · rw [if_pos (by simp [hpk])]
      rw [List.find?_cons_of_pos _ (by simp)]
    · rw [if_neg (by simp [hpk])]
      rw [List.find?_cons_of_neg _ (by simp [hpk])]
      apply ih
      rcases List.any_eq_true.mp hany with ⟨x, hx, hxk⟩
      rcases List.mem_cons.mp hx with rfl | hx'
      · exact absurd (by simpa using hxk) hpk
      · exact List.any_eq_true.mpr ⟨x, hx', hxk⟩

/-- Go-map update/lookup law: after `m[k] = v`, looking up `k` gives
`v` and every other key is unchanged. -/
theorem mapLookup_insert (m : List (String × LiveData)) (k : String) (v : LiveData)
    (q : String) :
    mapLookup (mapInsert m k v) q = if q = k then some v else mapLookup m q := by
  unfold mapInsert mapLookup
  by_cases hany : m.any (fun p => p.1 == k) = true
  · rw [if_pos hany]
    by_cases hqk : q = k
    · subst hqk
      rw [if_pos rfl, find?_replace_eq m q v hany]
      rfl
    · rw [if_neg hqk, find?_replace_ne m k q v hqk]
  · rw [if_neg hany]
    rw [List.find?_append]
    by_cases hqk : q = k
    · subst hqk
      have hnone : m.find? (fun p => p.1 == q) = none := by
        rw [List.find?_eq_none]
        intro x hx hxq
        exact hany (List.any_eq_true.mpr ⟨x, hx, hxq⟩)
      have hone : List.find? (fun p => p.1 == q) [(q, v)] = some (q, v) :=
        List.find?_cons_of_pos _ (by simp)
      rw [hnone, if_pos rfl, hone]
      rfl
    · rw [if_neg hqk]
      have h2 : List.find? (fun p => p.1 == q) [(k, v)] = none := by
        rw [List.find?_eq_none]
        intro x hx hxq
        rcases List.mem_singleton.mp hx with rfl
        have hk : k = q := by simpa using hxq
        exact hqk hk.symm
      rw [h2]
      cases m.find? (fun p => p.1 == q) <;> rfl

/-- Scrape-fold lookup characterisation: looking up `q` after folding a
row sequence over any starting map gives the value of the last row that
parsed to key `q`, or falls through to the starting map. -/
theorem processRows_lookup_aux (rows : List (List String))
    (m : List (String × LiveData)) (q : String) :
    mapLookup (rows.foldl stepRow m) q =
      match (rows.filterMap parseRow).reverse.find? (fun p => p.1 == q) with
      | some p => some p.2
      | none => mapLookup m q := by
  induction rows generalizing m with
  | nil => rfl
  | cons r rest ih =>
    rw [List.foldl_cons, ih (stepRow m r)]
    cases hpr : parseRow r with
    | none =>
      have hstep : stepRow m r = m := by unfold stepRow; rw [hpr]
      rw [List.filterMap_cons_none hpr, hstep]
    | some kv =>
      obtain ⟨k, v⟩ := kv
      have hstep : stepRow m r = mapInsert m k v := by unfold stepRow; rw [hpr]
      rw [List.filterMap_cons_some hpr, hstep, List.reverse_cons, List.find?_append]
      cases hfind : (rest.filterMap parseRow).reverse.find? (fun p => p.1 == q) with
      | some p => rfl
      | none =>
        rw [mapLookup_insert]
        by_cases hqk : q = k
        · subst hqk
          rw [if_pos rfl]
          have hone : List.find? (fun p => p.1 == q) [(q, v)] = some (q, v) :=
            List.find?_cons_of_pos _ (by simp)
          rw [hone]
          rfl
        · rw [if_neg hqk]
          have h2 : List.find? (fun p => p.1 == q) [(k, v)] = none := by
            rw [List.find?_eq_none]
            intro x hx hxq
            rcases List.mem_singleton.mp hx with rfl
            have hk : k = q := by simpa using hxq
            exact hqk hk.symm
          rw [h2]
          rfl

/-- A Go-map update never duplicates keys. -/
theorem keys_nodup_insert (m : List (String × LiveData)) (k : String) (v : LiveData)
    (h : (m.map Prod.fst).Nodup) : ((mapInsert m k v).map Prod.fst).Nodup := by
  unfold mapInsert
  by_cases hany : m.any (fun p => p.1 == k) = true
  · rw [if_pos hany, List.map_map]
    have : m.map (Prod.fst ∘ fun p => if p.1 == k then (k, v) else p) = m.map Prod.fst := by
      apply List.map_congr_left
      intro p _
      by_cases hpk : p.1 = k
      · simp [Function.comp, hpk]
      · simp [Function.comp, hpk]
    rw [this]
    exact h
  · rw [if_neg hany, List.map_append]
    rw [List.nodup_append]
    refine ⟨h, List.nodup_singleton k, ?_⟩
    intro a ha hk
    rcases List.mem_singleton.mp hk with rfl
    rcases List.mem_map.mp ha with ⟨p, hp, rfl⟩
    exact hany (List.any_eq_true.mpr ⟨p, hp, by simp⟩)

/-- Folding rows over a map with distinct keys keeps the keys distinct. -/
theorem keys_nodup_foldl (rows : List (List String)) (m : List (String × LiveData))
    (h : (m.map Prod.fst).Nodup) :
    (((rows.foldl stepRow m)).map Prod.fst).Nodup := by
  induction rows generalizing m with
  | nil => exact h
  | cons r rest ih =>
    rw [List.foldl_cons]
    apply ih
    unfold stepRow
    cases hpr : parseRow r with
    | none => exact h
    | some kv => exact keys_nodup_insert m kv.1 kv.2 h

/-- C6: the scrape of any row sequence yields a mapping with exactly one
entry per inverter identifier, and looking up an identifier gives the
Reading of the last row that parsed to it (last row wins on
duplicates). -/
theorem C6_one_entry_last_wins (rows : List (List String)) :
    ((processRows rows).map Prod.fst).Nodup ∧
    ∀ q : String, mapLookup (processRows rows) q =
      ((rows.filterMap parseRow).reverse.find? (fun p => p.1 == q)).map Prod.snd := by
  constructor
  · exact keys_nodup_foldl rows [] List.nodup_nil
  · intro q
    unfold processRows
    rw [processRows_lookup_aux]
    cases (rows.filterMap parseRow).reverse.find? (fun p => p.1 == q) with
    | none => rfl
    | some p => rfl


/-- With at least one loaded panel the float performance computation is
finite and equals the rational `performance`. -/
theorem performanceF_eq_finite (panels : List Panel) (m : List (String × LiveData))
    (h : panels ≠ []) :
    performanceF panels m = GoFloat.finite (performance panels m) := by
  have hlen : 0 < panels.length := List.length_pos.mpr h
  have hth : ((theoreticalTotalOutput panels : ℚ)) ≠ 0 := by
    unfold theoreticalTotalOutput maxPower
    push_cast
    refine mul_ne_zero ?_ (by norm_num)
    exact_mod_cast hlen.ne'
  have hdiv : divF (.finite (totalOutput panels m : ℚ))
      (.finite (theoreticalTotalOutput panels : ℚ)) =
      .finite ((totalOutput panels m : ℚ) / (theoreticalTotalOutput panels : ℚ)) := by
    simp only [divF]
    rw [if_neg hth]
  unfold performanceF
  rw [hdiv]
  rfl

/-- Decoding an encoded int64 field recovers the value when it is in
the int64 range. -/
theorem decodeIntField_num (n : Int) (h : inInt64 n) :
    decodeIntField (some (.num (n : ℚ))) = n := by
  show (if ((n : ℚ)).den = 1 ∧ -(2 ^ 63) ≤ ((n : ℚ)).num ∧ ((n : ℚ)).num ≤ 2 ^ 63 - 1
        then ((n : ℚ)).num else 0) = n
  rw [if_pos ⟨rfl, h.1, h.2⟩]
  rfl

/-- Decoding an encoded `LiveData` recovers it when its integer fields
are int64-representable, as the program's always are. -/
theorem decodeLive_encodeLive (d : LiveData) (h : liveInRange d) :
    decodeLive (encodeLive d) = d := by
  cases d with
  | mk pw vo te da =>
    obtain ⟨h1, h2, h3⟩ := h
    show LiveData.mk (decodeIntField (some (.num (pw : ℚ))))
        (decodeIntField (some (.num (vo : ℚ))))
        (decodeIntField (some (.num (te : ℚ)))) da = LiveData.mk pw vo te da
    rw [decodeIntField_num pw h1, decodeIntField_num vo h2, decodeIntField_num te h3]

/-- Decoding an encoded history recovers it. -/
theorem liveList_roundtrip (hist : List LiveData) (h : ∀ d ∈ hist, liveInRange d) :
    (hist.map encodeLive).map decodeLive = hist := by
  induction hist with
  | nil => rfl
  | cons d hist ih =>
    rw [List.map_cons, List.map_cons,
        decodeLive_encodeLive d (h d (List.mem_cons_self d hist)),
        ih (fun x hx => h x (List.mem_cons_of_mem d hx))]

/-- Decoding an encoded `Panel` recovers it. -/
theorem decodePanel_encodePanel (p : Panel) (h : panelInRange p) :
    decodePanel (encodePanel p) = p := by
  cases p with
  | mk id hist =>
    show Panel.mk id ((hist.map encodeLive).map decodeLive) = Panel.mk id hist
    rw [liveList_roundtrip hist h]

/-- Decoding an encoded panel collection recovers it. -/
theorem panels_roundtrip (panels : List Panel) (h : ∀ p ∈ panels, panelInRange p) :
    (panels.map encodePanel).map decodePanel = panels := by
  induction panels with
  | nil => rfl
  | cons p ps ih =>
    rw [List.map_cons, List.map_cons,
        decodePanel_encodePanel p (h p (List.mem_cons_self p ps)),
        ih (fun x hx => h x (List.mem_cons_of_mem p hx))]

/-- A marshallable summary record decodes back to its in-memory view. -/
theorem decodeGlobal_encodeGlobal (g : GlobalDataF) (hf : g.Performance.isFinite = true)
    (hp : inInt64 g.Power) :
    ∃ j, encodeGlobal g = some j ∧ decodeGlobal j = toGlobalData g := by
  cases g with
  | mk da po pe so =>
    cases pe with
    | finite q =>
      refine ⟨_, rfl, ?_⟩
      show GlobalData.mk da (decodeIntField (some (.num (po : ℚ)))) q so =
        GlobalData.mk da po q so
      rw [decodeIntField_num po hp]
    | nan => exact Bool.noConfusion hf
    | posInf => exact Bool.noConfusion hf
    | negInf => exact Bool.noConfusion hf

/-- The summary array marshals successfully and decodes back when every
record has a finite performance and an int64 power. -/
theorem globals_roundtrip (globals : List GlobalDataF)
    (h : ∀ g ∈ globals, g.Performance.isFinite = true ∧ inInt64 g.Power) :
    ∃ js, marshalGlobals globals = some js ∧
      js.map decodeGlobal = globals.map toGlobalData := by
  induction globals with
  | nil => exact ⟨[], rfl, rfl⟩
  | cons g gs ih =>
    obtain ⟨hg1, hg2⟩ := h g (List.mem_cons_self g gs)
    obtain ⟨j, hj1, hj2⟩ := decodeGlobal_encodeGlobal g hg1 hg2
    obtain ⟨js, hjs1, hjs2⟩ := ih (fun x hx => h x (List.mem_cons_of_mem g hx))
    refine ⟨j :: js, ?_, ?_⟩
    · show (match encodeGlobal g, marshalGlobals gs with
            | some a, some b => some (a :: b)
            | _, _ => none) = some (j :: js)
      rw [hj1, hjs1]
    · rw [List.map_cons, List.map_cons, hj2, hjs2]

/-- C7, counterexample: the round trip fails for the summary collection.
A run over an empty panel collection (a state the persistence contract
allows: `panels.json` containing `[]`) computes Performance as 0/0, NaN;
marshalling that record fails, the source discards the error and
truncates `global.json` to zero bytes, and reloading yields the empty
collection — not the one-record sequence that was saved. -/
theorem C7_counterexample :
    performanceF [] [] = GoFloat.nan ∧
    globalFileAfterSave
      [GlobalDataF.mk "2024-01-01 10:00:00" 0 GoFloat.nan (SolarData.mk 0 0 "" 0 0)] =
      some none ∧
    loadGlobalFromJSON (globalFileAfterSave
      [GlobalDataF.mk "2024-01-01 10:00:00" 0 GoFloat.nan (SolarData.mk 0 0 "" 0 0)]) =
      RunOutcome.ok ([] : List GlobalData) ∧
    [GlobalDataF.mk "2024-01-01 10:00:00" 0 GoFloat.nan (SolarData.mk 0 0 "" 0 0)].length = 1 :=
  ⟨rfl, rfl, rfl, rfl⟩

/-- C7 (amended): saving then reloading is the identity on every state
the program can hold that the marshaller accepts.  The panel collection
round-trips whenever its integer fields are int64-representable (always
true of Go values), and the summary collection round-trips — same
order, same records, same fields — whenever every record's performance
float is finite and its power int64-representable; a record with a
non-finite performance instead truncates `global.json` and reloading
yields the empty collection (`C7_counterexample`). -/
theorem C7_amended_roundtrip (panels : List Panel) (globals : List GlobalDataF)
    (hp : ∀ p ∈ panels, panelInRange p)
    (hg : ∀ g ∈ globals, g.Performance.isFinite = true ∧ inInt64 g.Power) :
    loadPanelsFromJSON (some (some (savePanels panels))) = RunOutcome.ok panels ∧
    loadGlobalFromJSON (globalFileAfterSave globals) =
      RunOutcome.ok (globals.map toGlobalData) := by
  constructor
  · show RunOutcome.ok ((panels.map encodePanel).map decodePanel) = RunOutcome.ok panels
    rw [panels_roundtrip panels hp]
  · obtain ⟨js, hjs1, hjs2⟩ := globals_roundtrip globals hg
    have hfile : globalFileAfterSave globals = some (some (Json.arr js)) := by
      unfold globalFileAfterSave saveGlobal
      rw [hjs1]
      rfl
    rw [hfile]
    show RunOutcome.ok (js.map decodeGlobal) = RunOutcome.ok (globals.map toGlobalData)
    rw [hjs2]

/-- C7, witness for the amended claim: a concrete panel collection and a
concrete finite-performance summary collection both reload exactly as
saved. -/
theorem C7_witness :
    loadPanelsFromJSON (some (some (savePanels
        [Panel.mk "A" [LiveData.mk 1234 230 35 "t"]]))) =
      RunOutcome.ok [Panel.mk "A" [LiveData.mk 1234 230 35 "t"]] ∧
    loadGlobalFromJSON (globalFileAfterSave
        [GlobalDataF.mk "d" 250 (GoFloat.finite 50) (SolarData.mk 1 2 "x" 3 4)]) =
      RunOutcome.ok [GlobalData.mk "d" 250 50 (SolarData.mk 1 2 "x" 3 4)] :=
  C7_amended_roundtrip [Panel.mk "A" [LiveData.mk 1234 230 35 "t"]]
    [GlobalDataF.mk "d" 250 (GoFloat.finite 50) (SolarData.mk 1 2 "x" 3 4)]
    (by decide) (by decide)
